import Mathlib

/-!
Shallow embedding of the Corruption-Server backend (src/index.js and the
near-identical serverless variant src/unnamed/part_000), together with proofs
about its behavior.

Modelling choices, all taken from the source:
* MongoDB collections are lists of documents in insertion order.
  `findOne` is `List.find?` (first match), `insertOne` appends,
  `deleteOne` removes the first matching document, `updateOne` updates the
  first matching document.  Document `_id` values are modelled as `Nat`.
* `bcrypt` (an external library) is idealized: `bcrypt.hash(pw, 10)` is a
  value recording the plaintext and the cost factor, and `bcrypt.compare`
  succeeds exactly on the hashed plaintext (no collisions).
* `jsonwebtoken` (an external library) is modelled at the level of token
  values: `jwt.sign({id, role}, secret, {expiresIn: "1d"})` produces a token
  carrying the payload, an expiry `now + 86400` seconds, and the signing
  secret; verification checks the secret and that the current time is before
  the expiry, exactly as the library rejects bad signatures and expired
  tokens.  The middleware is parametric in the `String → Option Payload`
  verifier so that its header handling can be analyzed for every verifier.
* Request body fields are `Option String` (`none` = absent); JavaScript
  truthiness `!field` is `jsFalsy` (absent or empty string).
* `header.split(" ")` is `jsSplit`, a char-level split with exactly the
  JavaScript semantics for a single-character separator.
-/

namespace CorruptionServer

/-- Idealized model of a bcrypt hash: `bcrypt.hash(plain, cost)` records the
plaintext and cost; randomness of the salt is irrelevant to `compare`. -/
structure BcryptHash where
  cost : Nat
  plain : String
deriving DecidableEq, Repr

/-- `bcrypt.hash(plain, cost)`. -/
def bcryptHash (plain : String) (cost : Nat) : BcryptHash :=
  { cost := cost, plain := plain }

/-- `bcrypt.compare(p, h)`: succeeds exactly when `p` is the hashed plaintext. -/
def bcryptCompare (p : String) (h : BcryptHash) : Bool :=
  p == h.plain

/-- A document of the `users` collection, as inserted by the register and
create-admin handlers. -/
structure User where
  id : Nat
  name : String
  email : String
  password : BcryptHash
  role : String
  blocked : Bool
  createdAt : Nat
deriving DecidableEq, Repr

/-- A document of the `cases` collection, as inserted by `POST /api/cases`. -/
structure Case where
  id : Nat
  title : String
  category : String
  description : String
  image : String
  userId : Nat
  createdAt : Nat
deriving DecidableEq, Repr

/-- The state of the two MongoDB collections. -/
structure DB where
  users : List User
  cases : List Case
deriving DecidableEq, Repr

/-- The JWT payload `{id: user._id, role: user.role}`. -/
structure Payload where
  userId : Nat
  role : String
deriving DecidableEq, Repr

/-- A signed token value: payload, expiry timestamp, and the signing secret
(standing in for the signature). -/
structure Token where
  payload : Payload
  exp : Nat
  sig : String
deriving DecidableEq, Repr

/-- `jwt.sign(payload, secret, {expiresIn: "1d"})` at time `now` (seconds):
expiry is 24 hours later. -/
def jwtSign (p : Payload) (secret : String) (now : Nat) : Token :=
  { payload := p, exp := now + 86400, sig := secret }

/-- `jwt.verify(token, secret)` at time `now`: rejects a wrong signature and a
token whose expiry has passed, otherwise returns the decoded payload. -/
def jwtVerify (t : Token) (secret : String) (now : Nat) : Option Payload :=
  if t.sig = secret ∧ now < t.exp then some t.payload else none

/-- JavaScript `String.prototype.split` with a single-character separator, on
the character list of the string.  `[] ↦ [[]]`, so `"".split(s)` is `[""]`. -/
def jsSplitAux (sep : Char) : List Char → List (List Char)
  | [] => [[]]
  | c :: cs =>
    if c = sep then [] :: jsSplitAux sep cs
    else
      match jsSplitAux sep cs with
      | [] => [[c]]
      | h :: t => (c :: h) :: t

/-- JavaScript `s.split(sep)` for a one-character separator. -/
def jsSplit (sep : Char) (s : String) : List String :=
  (jsSplitAux sep s.data).map String.mk

/-- `header.split(" ")[1]`: the second space-separated component, `none` when
the header has no second component (JS `undefined`). -/
def extractToken (h : String) : Option String :=
  (jsSplit ' ' h)[1]?

/-- JavaScript falsiness of an optional request-body string field:
absent (`undefined`) or the empty string. -/
def jsFalsy : Option String → Bool
  | none => true
  | some s => s.data.isEmpty

/-- Outcome of the `auth` middleware. -/
inductive AuthResult where
  | unauthenticated (msg : String)
  | ok (p : Payload)
deriving DecidableEq, Repr

/-- The `auth` middleware: 401 "No token provided" when the `Authorization`
header is absent or falsy; otherwise `jwt.verify(header.split(" ")[1])`, with
any verification throw (including `verify(undefined)` when there is no second
component) answered by 401 "Invalid or expired token"; on success the decoded
payload is attached as `req.user` and the request proceeds. -/
def authMiddleware (V : String → Option Payload) (header : Option String) : AuthResult :=
  match header with
  | none => .unauthenticated "No token provided"
  | some h =>
    if h.data.isEmpty then .unauthenticated "No token provided"
    else
      match extractToken h with
      | none => .unauthenticated "Invalid or expired token"
      | some t =>
        match V t with
        | none => .unauthenticated "Invalid or expired token"
        | some p => .ok p

/-- `usersCollection.findOne({email})` (exact, case-sensitive match). -/
def findByEmail (users : List User) (e : String) : Option User :=
  users.find? (fun u => u.email == e)

/-- `usersCollection.findOne({_id})`. -/
def findById (users : List User) (uid : Nat) : Option User :=
  users.find? (fun u => u.id == uid)

/-- Outcome of `POST /api/register`. -/
inductive RegisterResult where
  | invalidInput
  | emailTaken
  | ok
deriving DecidableEq, Repr

/-- `POST /api/register`: 400 when email or password is falsy, 400 when a user
with that email exists, otherwise inserts
`{name, email, password: bcrypt.hash(password, 10), role: "user",
blocked: false, createdAt}` (name defaulting to `""`). `newId`/`now` stand for
the store-generated `_id` and the clock. -/
def register (db : DB) (name email password : Option String) (newId now : Nat) :
    RegisterResult × DB :=
  if jsFalsy email || jsFalsy password then (.invalidInput, db)
  else
    match findByEmail db.users (email.getD "") with
    | some _ => (.emailTaken, db)
    | none =>
      let u : User :=
        { id := newId, name := name.getD "", email := email.getD ""
          password := bcryptHash (password.getD "") 10
          role := "user", blocked := false, createdAt := now }
      (.ok, { db with users := db.users ++ [u] })

/-- Outcome of `POST /api/login`. -/
inductive LoginResult where
  | invalidInput
  | userNotFound
  | wrongPassword
  | blocked
  | ok (token : Token) (role : String)
deriving DecidableEq, Repr

/-- `POST /api/login`: falsy fields → 400 "All fields required"; unknown email
→ 400 "User not found"; failed `bcrypt.compare` → 400 "Wrong password";
`user.blocked` → 403 "User is blocked"; otherwise a signed token and the
user's role. -/
def login (db : DB) (email password : Option String) (secret : String) (now : Nat) :
    LoginResult :=
  if jsFalsy email || jsFalsy password then .invalidInput
  else
    match findByEmail db.users (email.getD "") with
    | none => .userNotFound
    | some user =>
      if !(bcryptCompare (password.getD "") user.password) then .wrongPassword
      else if user.blocked then .blocked
      else .ok (jwtSign { userId := user.id, role := user.role } secret now) user.role

/-- An HTTP response: status code and message. -/
structure Resp where
  status : Nat
  message : String
deriving DecidableEq, Repr

/-- `casesCollection.deleteOne({_id: cid})`: removes the first (hence, for
unique ids, the only) matching document. -/
def deleteFirstCase (cs : List Case) (cid : Nat) : List Case :=
  cs.eraseP (fun c => c.id == cid)

/-- `DELETE /api/cases/:id` behind `auth`: 403 "Admin only" unless
`req.user.role === "admin"`; otherwise `deleteOne` and, unconditionally,
200 "Deleted successfully" — the delete result is never inspected. -/
def deleteCaseRoute (V : String → Option Payload) (header : Option String)
    (db : DB) (cid : Nat) : Resp × DB :=
  match authMiddleware V header with
  | .unauthenticated m => ({ status := 401, message := m }, db)
  | .ok p =>
    if p.role ≠ "admin" then ({ status := 403, message := "Admin only" }, db)
    else ({ status := 200, message := "Deleted successfully" },
          { db with cases := deleteFirstCase db.cases cid })

/-- `usersCollection.updateOne({_id: uid}, {$set: {blocked: b}})`:
updates the first matching document. -/
def setBlockedFirst (users : List User) (uid : Nat) (b : Bool) : List User :=
  match users with
  | [] => []
  | u :: rest =>
    if u.id == uid then { u with blocked := b } :: rest
    else u :: setBlockedFirst rest uid b

/-- `PUT /api/block/:id` behind `auth`: 403 "Admin only" for non-admins,
404 "User not found" when no user has that id, otherwise flips the found
user's `blocked` flag and answers 200 "User status updated". -/
def blockRoute (V : String → Option Payload) (header : Option String)
    (db : DB) (uid : Nat) : Resp × DB :=
  match authMiddleware V header with
  | .unauthenticated m => ({ status := 401, message := m }, db)
  | .ok p =>
    if p.role ≠ "admin" then ({ status := 403, message := "Admin only" }, db)
    else
      match findById db.users uid with
      | none => ({ status := 404, message := "User not found" }, db)
      | some u =>
        ({ status := 200, message := "User status updated" },
         { db with users := setBlockedFirst db.users u.id (!u.blocked) })

/-- The user inserted by `GET /create-admin`. -/
def adminUser (newId now : Nat) : User :=
  { id := newId, name := "Admin User", email := "admin@corruption.com"
    password := bcryptHash "admin123" 10
    role := "admin", blocked := false, createdAt := now }

/-- `GET /create-admin`: if a user with the fixed admin email exists, answer
"Admin already exists" and change nothing; otherwise insert the admin user. -/
def seedAdmin (db : DB) (newId now : Nat) : Resp × DB :=
  match findByEmail db.users "admin@corruption.com" with
  | some _ => ({ status := 200, message := "Admin already exists" }, db)
  | none =>
    ({ status := 200,
       message := "Admin created → email: admin@corruption.com password: admin123" },
     { db with users := db.users ++ [adminUser newId now] })

/-- `POST /api/cases` (behind `auth`): inserts a case stamped with the
authenticated user's id; always succeeds. -/
def addCaseHandler (db : DB) (p : Payload)
    (title category description image : String) (newId now : Nat) : DB :=
  { db with
    cases := db.cases ++
      [{ id := newId, title := title, category := category
         description := description, image := image
         userId := p.userId, createdAt := now }] }

/-- `GET /api/cases`: returns every case, store-natural order. -/
def listCases (db : DB) : List Case :=
  db.cases

/-- The user-store invariant: no two users share an email. -/
def EmailsNodup (db : DB) : Prop :=
  (db.users.map (fun u => u.email)).Nodup

/-- A concrete verifier used when instantiating theorems: accepts exactly the
token "tok" as the admin with id 1. -/
def demoVerifier : String → Option Payload :=
  fun s => if s = "tok" then some { userId := 1, role := "admin" } else none

/-- A concrete case document used when instantiating theorems. -/
def demoCase : Case :=
  { id := 5, title := "t", category := "c", description := "d", image := ""
    userId := 1, createdAt := 0 }

/-- A concrete user document used when instantiating theorems. -/
def demoUser : User :=
  { id := 1, name := "", email := "a@x.com", password := bcryptHash "pw1" 10
    role := "user", blocked := false, createdAt := 0 }

theorem jsSplitAux_append_sep (sep : Char) (w t : List Char) (hw : sep ∉ w) :
    jsSplitAux sep (w ++ sep :: t) = w :: jsSplitAux sep t := by
  induction w with
  | nil => simp [jsSplitAux]
  | cons c cs ih =>
    have hc : ¬ c = sep := fun h => hw (by simp [h])
    have hcs : sep ∉ cs := fun h => hw (List.mem_cons_of_mem _ h)
    simp [jsSplitAux, hc, ih hcs]

theorem jsSplitAux_no_sep (sep : Char) (l : List Char) (h : sep ∉ l) :
    jsSplitAux sep l = [l] := by
  induction l with
  | nil => rfl
  | cons c cs ih =>
    have hc : ¬ c = sep := fun hh => h (by simp [hh])
    have hcs : sep ∉ cs := fun hh => h (List.mem_cons_of_mem _ hh)
    simp [jsSplitAux, hc, ih hcs]

theorem isEmpty_append_cons (l1 : List Char) (c : Char) (l2 : List Char) :
    (l1 ++ c :: l2).isEmpty = false := by
  cases l1 <;> rfl

theorem data_append_space (w t : String) :
    (w ++ " " ++ t).data = w.data ++ ' ' :: t.data := by
  simp [String.data_append]

theorem extractToken_word (w t : String) (hw : ' ' ∉ w.data) :
    extractToken (w ++ " " ++ t) = ((jsSplitAux ' ' t.data).map String.mk)[0]? := by
  simp [extractToken, jsSplit, data_append_space, jsSplitAux_append_sep ' ' w.data t.data hw]

theorem bearer_eq_append (t : String) : "Bearer " ++ t = "Bearer" ++ " " ++ t := by
  apply String.ext
  simp [String.data_append]

theorem extractToken_bearer (t : String) (ht : ' ' ∉ t.data) :
    extractToken ("Bearer " ++ t) = some t := by
  rw [bearer_eq_append, extractToken_word "Bearer" t (by decide),
    jsSplitAux_no_sep ' ' t.data ht]
  rfl

theorem authMiddleware_bearer (V : String → Option Payload) (t : String)
    (ht : ' ' ∉ t.data) :
    authMiddleware V (some ("Bearer " ++ t)) =
      match V t with
      | none => .unauthenticated "Invalid or expired token"
      | some p => .ok p := by
  have hne : ("Bearer " ++ t).data.isEmpty = false := by
    rw [bearer_eq_append, data_append_space]
    exact isEmpty_append_cons ..
  simp [authMiddleware, hne, extractToken_bearer t ht]

theorem extractToken_of_empty (h : String) (hd : h.data = []) :
    extractToken h = none := by
  simp [extractToken, jsSplit, hd, jsSplitAux]

theorem authMiddleware_of_nonempty (V : String → Option Payload) (h : String)
    (hne : h.data.isEmpty = false) :
    authMiddleware V (some h) =
      match extractToken h with
      | none => .unauthenticated "Invalid or expired token"
      | some t =>
        match V t with
        | none => .unauthenticated "Invalid or expired token"
        | some p => .ok p := by
  simp [authMiddleware, hne]

theorem authMiddleware_bearer_ok (V : String → Option Payload) (t : String) (p : Payload)
    (ht : ' ' ∉ t.data) (hV : V t = some p) :
    authMiddleware V (some ("Bearer " ++ t)) = .ok p := by
  rw [authMiddleware_bearer V t ht, hV]

theorem eraseP_eq_filter_of_nodup (cs : List Case) (cid : Nat)
    (h : (cs.map (fun c => c.id)).Nodup) :
    cs.eraseP (fun c => c.id == cid) = cs.filter (fun c => !(c.id == cid)) := by
  induction cs with
  | nil => rfl
  | cons c rest ih =>
    have hrest : (rest.map (fun c => c.id)).Nodup := (List.nodup_cons.mp h).2
    cases hc : (c.id == cid) with
    | false => simp [List.eraseP_cons, List.filter_cons, hc, ih hrest]
    | true =>
      have hcid : c.id = cid := by simpa using hc
      have hnotin : c.id ∉ rest.map (fun c => c.id) := (List.nodup_cons.mp h).1
      have hall : ∀ x ∈ rest, (!(x.id == cid)) = true := by
        intro x hx
        have hne : x.id ≠ cid := by
          intro he
          exact hnotin (by rw [hcid, ← he]; exact List.mem_map_of_mem _ hx)
        simp [hne]
      simp [List.eraseP_cons, List.filter_cons, hc, List.filter_eq_self.mpr hall]

end CorruptionServer

namespace CorruptionServer

/-- C10: the `auth` middleware never inspects the scheme word of the
`Authorization` header: for every verifier and every header of the form
`<word> <rest>` whose first word contains no space, the outcome equals that of
`Bearer <rest>` — only the second space-separated component is examined. -/
theorem auth_ignores_scheme_word (V : String → Option Payload) (w t : String)
    (hw : ' ' ∉ w.data) :
    authMiddleware V (some (w ++ " " ++ t)) = authMiddleware V (some ("Bearer " ++ t)) := by
  have h1 : (w ++ " " ++ t).data.isEmpty = false := by
    rw [data_append_space]; exact isEmpty_append_cons ..
  have h2 : ("Bearer " ++ t).data.isEmpty = false := by
    rw [bearer_eq_append, data_append_space]; exact isEmpty_append_cons ..
  have e1 := extractToken_word w t hw
  have e2 : extractToken ("Bearer " ++ t) = ((jsSplitAux ' ' t.data).map String.mk)[0]? := by
    rw [bearer_eq_append]; exact extractToken_word "Bearer" t (by decide)
  rw [authMiddleware_of_nonempty V _ h1, authMiddleware_of_nonempty V _ h2, e1, e2]

/-- C10 witness: `"Token tok"` and `"X tok"` authenticate exactly like
`"Bearer tok"`. -/
theorem auth_ignores_scheme_word_witness :
    authMiddleware demoVerifier (some ("Token" ++ " " ++ "tok")) =
      authMiddleware demoVerifier (some ("Bearer " ++ "tok"))
    ∧ authMiddleware demoVerifier (some ("X" ++ " " ++ "tok")) =
      authMiddleware demoVerifier (some ("Bearer " ++ "tok")) :=
  ⟨auth_ignores_scheme_word demoVerifier "Token" "tok" (by decide),
   auth_ignores_scheme_word demoVerifier "X" "tok" (by decide)⟩

/-- C4: the access-control gate rejects a missing `Authorization` header with
401 "No token provided" (a returned rejection, not a crash); when a token is
extracted but the verifier rejects it, it answers 401 "Invalid or expired
token"; when verification succeeds it attaches exactly the decoded payload and
lets the request proceed; and a token issued with expiry in the past always
fails `jwtVerify`. -/
theorem authMiddleware_spec (V : String → Option Payload) :
    authMiddleware V none = .unauthenticated "No token provided"
    ∧ (∀ h t, extractToken h = some t → V t = none →
        authMiddleware V (some h) = .unauthenticated "Invalid or expired token")
    ∧ (∀ h t p, extractToken h = some t → V t = some p →
        authMiddleware V (some h) = .ok p)
    ∧ (∀ pl secret iat now, iat + 86400 ≤ now →
        jwtVerify (jwtSign pl secret iat) secret now = none) := by
  refine ⟨rfl, ?_, ?_, ?_⟩
  · intro h t hext hV
    have hne : h.data.isEmpty = false := by
      cases hd : h.data.isEmpty
      · rfl
      · rw [extractToken_of_empty h (List.isEmpty_iff.mp hd)] at hext
        exact absurd hext (by simp)
    simp [authMiddleware, hne, hext, hV]
  · intro h t p hext hV
    have hne : h.data.isEmpty = false := by
      cases hd : h.data.isEmpty
      · rfl
      · rw [extractToken_of_empty h (List.isEmpty_iff.mp hd)] at hext
        exact absurd hext (by simp)
    simp [authMiddleware, hne, hext, hV]
  · intro pl secret iat now hle
    simp [jwtVerify, jwtSign, Nat.not_lt.mpr hle]

/-- C4 witness: concrete runs of the gate — missing header, bad token, good
token, and an expired token failing verification. -/
theorem authMiddleware_spec_witness :
    authMiddleware demoVerifier none = .unauthenticated "No token provided"
    ∧ authMiddleware demoVerifier (some "Bearer bad") =
        .unauthenticated "Invalid or expired token"
    ∧ authMiddleware demoVerifier (some "Bearer tok") = .ok { userId := 1, role := "admin" }
    ∧ jwtVerify (jwtSign { userId := 1, role := "admin" } "s" 0) "s" 86400 = none :=
  ⟨(authMiddleware_spec demoVerifier).1,
   (authMiddleware_spec demoVerifier).2.1 "Bearer bad" "bad" (by decide) (by decide),
   (authMiddleware_spec demoVerifier).2.2.1 "Bearer tok" "tok" { userId := 1, role := "admin" }
     (by decide) (by decide),
   (authMiddleware_spec demoVerifier).2.2.2 { userId := 1, role := "admin" } "s" 0 86400
     (by decide)⟩

end CorruptionServer

namespace CorruptionServer

/-- C1 counterexample: login does reveal whether the account exists — with the
same wrong password, a store holding the account answers `wrongPassword` while
a store without it answers the distinct rejection `userNotFound`, so two runs
differing only in the account's existence do not produce the same rejection. -/
theorem login_reveals_existence :
    login { users := [demoUser], cases := [] } (some "a@x.com") (some "bad") "s" 0 =
      LoginResult.wrongPassword
    ∧ login { users := [], cases := [] } (some "a@x.com") (some "bad") "s" 0 =
      LoginResult.userNotFound
    ∧ LoginResult.wrongPassword ≠ LoginResult.userNotFound := by
  refine ⟨by decide, by decide, by decide⟩

/-- C1 (amended): for an existing email and a password failing the stored-hash
comparison, login answers `wrongPassword`, and two runs against stores whose
matched users carry the same stored hash — in particular stores differing only
in the target's `blocked` flag — both produce that same rejection; the blocked
flag is only consulted after a successful password match. -/
theorem login_wrong_password_uniform (db1 db2 : DB) (email password : Option String)
    (u1 u2 : User) (secret1 secret2 : String) (now1 now2 : Nat)
    (he : jsFalsy email = false) (hp : jsFalsy password = false)
    (h1 : findByEmail db1.users (email.getD "") = some u1)
    (h2 : findByEmail db2.users (email.getD "") = some u2)
    (hpw : u2.password = u1.password)
    (hc : bcryptCompare (password.getD "") u1.password = false) :
    login db1 email password secret1 now1 = LoginResult.wrongPassword
    ∧ login db2 email password secret2 now2 = LoginResult.wrongPassword := by
  constructor
  · simp [login, he, hp, h1, hc]
  · simp [login, he, hp, h2, hpw, hc]

/-- C1 witness: concrete stores differing only in the target's blocked flag
both reject a wrong password with `wrongPassword`. -/
theorem login_wrong_password_uniform_witness :
    login { users := [demoUser], cases := [] } (some "a@x.com") (some "bad") "s" 0 =
      LoginResult.wrongPassword
    ∧ login { users := [{ demoUser with blocked := true }], cases := [] }
        (some "a@x.com") (some "bad") "s" 0 = LoginResult.wrongPassword :=
  login_wrong_password_uniform
    { users := [demoUser], cases := [] }
    { users := [{ demoUser with blocked := true }], cases := [] }
    (some "a@x.com") (some "bad") demoUser { demoUser with blocked := true }
    "s" "s" 0 0 (by decide) (by decide) (by decide) (by decide) (by decide) (by decide)

/-- C2 counterexample: the delete route never answers 404 — deleting an id
that matches no stored case, and deleting the same id a second time, both
answer 200 "Deleted successfully" instead of the claimed `NotFound`. -/
theorem deleteCase_missing_id_not_notFound :
    (deleteCaseRoute demoVerifier (some "Bearer tok")
        { users := [], cases := [demoCase] } 99).1 =
      { status := 200, message := "Deleted successfully" }
    ∧ (deleteCaseRoute demoVerifier (some "Bearer tok")
        (deleteCaseRoute demoVerifier (some "Bearer tok")
          { users := [], cases := [demoCase] } 5).2 5).1 =
      { status := 200, message := "Deleted successfully" }
    ∧ ({ status := 200, message := "Deleted successfully" } : Resp).status ≠ 404 := by
  refine ⟨by decide, by decide, by decide⟩

/-- C2 (amended): through the admin-gated route, delete removes exactly the
case whose id matches (and no other, ids being unique) and answers
200 "Deleted successfully"; for an id matching no stored case — in particular
a second delete of the same id — it removes nothing and still answers
200 "Deleted successfully", never `NotFound`. -/
theorem deleteCase_admin_total (V : String → Option Payload) (t : String) (p : Payload)
    (db : DB) (cid : Nat)
    (ht : ' ' ∉ t.data) (hV : V t = some p) (hp : p.role = "admin")
    (hids : (db.cases.map (fun c => c.id)).Nodup) :
    deleteCaseRoute V (some ("Bearer " ++ t)) db cid =
      ({ status := 200, message := "Deleted successfully" },
       { db with cases := db.cases.filter (fun c => !(c.id == cid)) }) := by
  simp [deleteCaseRoute, authMiddleware_bearer_ok V t p ht hV, hp, deleteFirstCase,
    eraseP_eq_filter_of_nodup db.cases cid hids]

/-- C2 witness: an admin delete of the one stored case removes it and answers
200; an admin delete of an absent id leaves the store unchanged and answers
the same 200. -/
theorem deleteCase_admin_total_witness :
    deleteCaseRoute demoVerifier (some ("Bearer " ++ "tok"))
        { users := [], cases := [demoCase] } 5 =
      ({ status := 200, message := "Deleted successfully" }, { users := [], cases := [] })
    ∧ deleteCaseRoute demoVerifier (some ("Bearer " ++ "tok"))
        { users := [], cases := [demoCase] } 99 =
      ({ status := 200, message := "Deleted successfully" },
       { users := [], cases := [demoCase] }) := by
  have h1 := deleteCase_admin_total demoVerifier "tok" { userId := 1, role := "admin" }
    { users := [], cases := [demoCase] } 5 (by decide) (by decide) (by decide) (by decide)
  have h2 := deleteCase_admin_total demoVerifier "tok" { userId := 1, role := "admin" }
    { users := [], cases := [demoCase] } 99 (by decide) (by decide) (by decide) (by decide)
  exact ⟨by rw [h1]; decide, by rw [h2]; decide⟩

/-- C3: a request to either admin-gated route whose token verifies to a payload
with a non-admin role is answered 403 "Admin only", for every path parameter
and store, and both stores are left unchanged. -/
theorem admin_gate_forbidden (V : String → Option Payload) (t : String) (p : Payload)
    (db : DB) (cid uid : Nat)
    (ht : ' ' ∉ t.data) (hV : V t = some p) (hp : p.role ≠ "admin") :
    deleteCaseRoute V (some ("Bearer " ++ t)) db cid =
      ({ status := 403, message := "Admin only" }, db)
    ∧ blockRoute V (some ("Bearer " ++ t)) db uid =
      ({ status := 403, message := "Admin only" }, db) := by
  constructor
  · simp [deleteCaseRoute, authMiddleware_bearer_ok V t p ht hV, hp]
  · simp [blockRoute, authMiddleware_bearer_ok V t p ht hV, hp]

/-- C3 witness: a token verifying to a plain user is refused by both
admin-gated routes with 403, leaving the store unchanged. -/
theorem admin_gate_forbidden_witness :
    deleteCaseRoute (fun s => if s = "u" then some { userId := 2, role := "user" } else none)
        (some ("Bearer " ++ "u")) { users := [demoUser], cases := [demoCase] } 5 =
      ({ status := 403, message := "Admin only" }, { users := [demoUser], cases := [demoCase] })
    ∧ blockRoute (fun s => if s = "u" then some { userId := 2, role := "user" } else none)
        (some ("Bearer " ++ "u")) { users := [demoUser], cases := [demoCase] } 1 =
      ({ status := 403, message := "Admin only" }, { users := [demoUser], cases := [demoCase] }) :=
  admin_gate_forbidden (fun s => if s = "u" then some { userId := 2, role := "user" } else none)
    "u" { userId := 2, role := "user" } { users := [demoUser], cases := [demoCase] } 5 1
    (by decide) (by decide) (by decide)

end CorruptionServer

namespace CorruptionServer

theorem register_ok_eq (db : DB) (name email password : Option String) (newId now : Nat)
    (hf : (jsFalsy email || jsFalsy password) = false)
    (hn : findByEmail db.users (email.getD "") = none) :
    register db name email password newId now =
      (.ok, { db with users := db.users ++
        [{ id := newId, name := name.getD "", email := email.getD ""
           password := bcryptHash (password.getD "") 10
           role := "user", blocked := false, createdAt := now }] }) := by
  simp [register, hf, hn]

/-- C5: register answers `invalidInput` and adds no user when email or password
is absent or empty; answers `emailTaken` and adds no user when a user with
exactly that email already exists; otherwise appends exactly one user with
role "user", `blocked := false`, the given name (defaulting to ""), and the
bcrypt hash of the password at cost 10, and answers `ok`. -/
theorem register_spec (db : DB) (name email password : Option String) (newId now : Nat) :
    ((jsFalsy email || jsFalsy password) = true →
      register db name email password newId now = (.invalidInput, db))
    ∧ ((jsFalsy email || jsFalsy password) = false →
        ∀ u, findByEmail db.users (email.getD "") = some u →
          register db name email password newId now = (.emailTaken, db))
    ∧ ((jsFalsy email || jsFalsy password) = false →
        findByEmail db.users (email.getD "") = none →
        register db name email password newId now =
          (.ok, { db with users := db.users ++
            [{ id := newId, name := name.getD "", email := email.getD ""
               password := bcryptHash (password.getD "") 10
               role := "user", blocked := false, createdAt := now }] })) := by
  refine ⟨?_, ?_, ?_⟩
  · intro hf
    simp [register, hf]
  · intro hf u hu
    simp [register, hf, hu]
  · intro hf hn
    exact register_ok_eq db name email password newId now hf hn

/-- C5 witness: a run of each branch — empty password, duplicate email, and a
successful registration appending exactly the expected user document. -/
theorem register_spec_witness :
    register { users := [], cases := [] } none (some "a@x.com") (some "") 1 0 =
      (.invalidInput, { users := [], cases := [] })
    ∧ register { users := [demoUser], cases := [] } none (some "a@x.com") (some "pw2") 2 7 =
      (.emailTaken, { users := [demoUser], cases := [] })
    ∧ register { users := [], cases := [] } none (some "a@x.com") (some "pw1") 1 0 =
      (.ok, { users := [demoUser], cases := [] }) := by
  refine ⟨?_, ?_, ?_⟩
  · exact (register_spec { users := [], cases := [] } none (some "a@x.com") (some "") 1 0).1
      (by decide)
  · exact (register_spec { users := [demoUser], cases := [] } none (some "a@x.com")
      (some "pw2") 2 7).2.1 (by decide) demoUser (by decide)
  · have h := (register_spec { users := [], cases := [] } none (some "a@x.com")
      (some "pw1") 1 0).2.2 (by decide) (by decide)
    rw [h]; decide

/-- C6: from a store with no user under the chosen (non-falsy) email,
registering and then logging in with the same credentials succeeds: register
answers `ok`, login answers `ok` with role "user" and a token whose payload
carries role "user" and which `jwtVerify` decodes back to that payload. -/
theorem register_then_login (db : DB) (name email password : Option String)
    (newId now now2 : Nat) (secret : String)
    (he : jsFalsy email = false) (hp : jsFalsy password = false)
    (hnone : findByEmail db.users (email.getD "") = none) :
    (register db name email password newId now).1 = .ok
    ∧ login (register db name email password newId now).2 email password secret now2 =
        .ok (jwtSign { userId := newId, role := "user" } secret now2) "user"
    ∧ (jwtSign { userId := newId, role := "user" } secret now2).payload.role = "user"
    ∧ jwtVerify (jwtSign { userId := newId, role := "user" } secret now2) secret now2 =
        some { userId := newId, role := "user" } := by
  have hf : (jsFalsy email || jsFalsy password) = false := by simp [he, hp]
  have hreg := register_ok_eq db name email password newId now hf hnone
  refine ⟨by rw [hreg], ?_, rfl, ?_⟩
  · rw [hreg]
    have hfind : findByEmail
        (db.users ++ [{ id := newId, name := name.getD "", email := email.getD ""
                        password := bcryptHash (password.getD "") 10
                        role := "user", blocked := false, createdAt := now }])
        (email.getD "") =
        some { id := newId, name := name.getD "", email := email.getD ""
               password := bcryptHash (password.getD "") 10
               role := "user", blocked := false, createdAt := now } := by
      unfold findByEmail at hnone ⊢
      rw [List.find?_append, hnone]
      simp
    simp only [login, hf, Bool.false_eq_true, if_false, hfind]
    simp [bcryptCompare, bcryptHash, jwtSign]
  · simp [jwtVerify, jwtSign]

/-- C6 witness: registering then logging in with `a@x.com` / `pw1` on an empty
store yields a token with role "user" that verifies back to its payload. -/
theorem register_then_login_witness :
    (register { users := [], cases := [] } none (some "a@x.com") (some "pw1") 1 0).1 =
      RegisterResult.ok
    ∧ login (register { users := [], cases := [] } none (some "a@x.com") (some "pw1") 1 0).2
        (some "a@x.com") (some "pw1") "s" 10 =
        .ok (jwtSign { userId := 1, role := "user" } "s" 10) "user"
    ∧ (jwtSign { userId := 1, role := "user" } "s" 10).payload.role = "user"
    ∧ jwtVerify (jwtSign { userId := 1, role := "user" } "s" 10) "s" 10 =
        some { userId := 1, role := "user" } :=
  register_then_login { users := [], cases := [] } none (some "a@x.com") (some "pw1")
    1 0 10 "s" (by decide) (by decide) (by decide)

end CorruptionServer

namespace CorruptionServer

theorem findById_some_id (l : List User) (uid : Nat) (u : User)
    (h : findById l uid = some u) : u.id = uid := by
  have := List.find?_some h
  simpa using this

theorem findById_setBlockedFirst (l : List User) (uid : Nat) (b : Bool) :
    findById (setBlockedFirst l uid b) uid =
      (findById l uid).map (fun u => { u with blocked := b }) := by
  unfold findById
  induction l with
  | nil => rfl
  | cons u rest ih =>
    cases hu : (u.id == uid) with
    | true =>
      have hset : setBlockedFirst (u :: rest) uid b = { u with blocked := b } :: rest := by
        simp [setBlockedFirst, hu]
      rw [hset,
        List.find?_cons_of_pos (p := fun w => w.id == uid) (a := { u with blocked := b }) rest hu,
        List.find?_cons_of_pos (p := fun w => w.id == uid) (a := u) rest hu]
      rfl
    | false =>
      have hset : setBlockedFirst (u :: rest) uid b = u :: setBlockedFirst rest uid b := by
        simp [setBlockedFirst, hu]
      have hneg : ¬ ((fun w : User => w.id == uid) u = true) := by simp [hu]
      rw [hset,
        List.find?_cons_of_neg (p := fun w => w.id == uid) (a := u) (setBlockedFirst rest uid b) hneg,
        List.find?_cons_of_neg (p := fun w => w.id == uid) (a := u) rest hneg]
      exact ih

theorem setBlockedFirst_setBlockedFirst (l : List User) (uid : Nat) (b b2 : Bool) :
    setBlockedFirst (setBlockedFirst l uid b) uid b2 = setBlockedFirst l uid b2 := by
  induction l with
  | nil => rfl
  | cons u rest ih =>
    cases hu : (u.id == uid) with
    | true => simp [setBlockedFirst, hu]
    | false => simp [setBlockedFirst, hu, ih]

theorem setBlockedFirst_self (l : List User) (uid : Nat) (u : User)
    (h : findById l uid = some u) : setBlockedFirst l uid u.blocked = l := by
  induction l with
  | nil => exact absurd h (by simp [findById])
  | cons v rest ih =>
    cases hv : (v.id == uid) with
    | true =>
      have hvu : v = u := by
        rw [findById, List.find?_cons_of_pos rest (show ((v.id == uid) = true) from hv)] at h
        exact Option.some_inj.mp h
      subst hvu
      simp [setBlockedFirst, hv]
    | false =>
      have hrest : findById rest uid = some u := by
        rw [findById, List.find?_cons_of_neg rest (show ¬ ((v.id == uid) = true) by simp [hv])] at h
        exact h
      simp [setBlockedFirst, hv, ih hrest]

theorem map_email_setBlockedFirst (l : List User) (uid : Nat) (b : Bool) :
    (setBlockedFirst l uid b).map (fun u => u.email) = l.map (fun u => u.email) := by
  induction l with
  | nil => rfl
  | cons u rest ih =>
    cases hu : (u.id == uid) with
    | true => simp [setBlockedFirst, hu]
    | false => simp [setBlockedFirst, hu, ih]

end CorruptionServer

namespace CorruptionServer

/-- C7: through the admin-gated block route, an id matching no user is
answered 404 "User not found" with the store unchanged; an id matching a user
is answered 200 "User status updated" with exactly that user's blocked flag
flipped, and a second identical call restores the original store
(false→true→false). -/
theorem block_toggle (V : String → Option Payload) (t : String) (p : Payload)
    (db : DB) (uid : Nat)
    (ht : ' ' ∉ t.data) (hV : V t = some p) (hp : p.role = "admin") :
    (findById db.users uid = none →
      blockRoute V (some ("Bearer " ++ t)) db uid =
        ({ status := 404, message := "User not found" }, db))
    ∧ (∀ u, findById db.users uid = some u →
        (blockRoute V (some ("Bearer " ++ t)) db uid).1 =
          { status := 200, message := "User status updated" }
        ∧ findById (blockRoute V (some ("Bearer " ++ t)) db uid).2.users uid =
            some { u with blocked := !u.blocked }
        ∧ (blockRoute V (some ("Bearer " ++ t))
            (blockRoute V (some ("Bearer " ++ t)) db uid).2 uid).2 = db) := by
  have hauth := authMiddleware_bearer_ok V t p ht hV
  constructor
  · intro hn
    simp [blockRoute, hauth, hp, hn]
  · intro u hu
    have huid : u.id = uid := findById_some_id _ _ _ hu
    have hroute : blockRoute V (some ("Bearer " ++ t)) db uid =
        ({ status := 200, message := "User status updated" },
         { db with users := setBlockedFirst db.users uid (!u.blocked) }) := by
      simp [blockRoute, hauth, hp, hu, huid]
    refine ⟨by rw [hroute], ?_, ?_⟩
    · rw [hroute]
      simp [findById_setBlockedFirst, hu]
    · rw [hroute]
      have hu1 : findById (setBlockedFirst db.users uid (!u.blocked)) uid =
          some { u with blocked := !u.blocked } := by
        simp [findById_setBlockedFirst, hu]
      simp [blockRoute, hauth, hp, hu1, huid, Bool.not_not,
        setBlockedFirst_setBlockedFirst, setBlockedFirst_self _ _ _ hu]

/-- C7 witness: blocking user 1 flips its flag to true and a second call
restores the original store. -/
theorem block_toggle_witness :
    (blockRoute demoVerifier (some ("Bearer " ++ "tok"))
        { users := [demoUser], cases := [] } 1).1 =
      { status := 200, message := "User status updated" }
    ∧ findById (blockRoute demoVerifier (some ("Bearer " ++ "tok"))
        { users := [demoUser], cases := [] } 1).2.users 1 =
      some { demoUser with blocked := !demoUser.blocked }
    ∧ (blockRoute demoVerifier (some ("Bearer " ++ "tok"))
        (blockRoute demoVerifier (some ("Bearer " ++ "tok"))
          { users := [demoUser], cases := [] } 1).2 1).2 =
      { users := [demoUser], cases := [] } :=
  (block_toggle demoVerifier "tok" { userId := 1, role := "admin" }
    { users := [demoUser], cases := [] } 1 (by decide) (by decide) (by decide)).2
    demoUser (by decide)

/-- C8: create-admin is idempotent — the seeded user has role "admin" and
`blocked := false`; when no user carries the fixed admin email the call
appends exactly that one user and reports creation; and a second call after
any first call reports "Admin already exists" and returns the store of the
first call unchanged, so the store after two calls equals the store after
one. -/
theorem seedAdmin_idempotent (db : DB) (n t n2 t2 : Nat) :
    ((adminUser n t).role = "admin" ∧ (adminUser n t).blocked = false)
    ∧ (findByEmail db.users "admin@corruption.com" = none →
        seedAdmin db n t =
          ({ status := 200,
             message := "Admin created → email: admin@corruption.com password: admin123" },
           { db with users := db.users ++ [adminUser n t] }))
    ∧ seedAdmin (seedAdmin db n t).2 n2 t2 =
        ({ status := 200, message := "Admin already exists" }, (seedAdmin db n t).2) := by
  refine ⟨⟨rfl, rfl⟩, ?_, ?_⟩
  · intro hn
    simp [seedAdmin, hn]
  · cases hf : findByEmail db.users "admin@corruption.com" with
    | some u => simp [seedAdmin, hf]
    | none =>
      have hfind : findByEmail (db.users ++ [adminUser n t]) "admin@corruption.com" =
          some (adminUser n t) := by
        unfold findByEmail at hf ⊢
        rw [List.find?_append, hf]
        simp [adminUser]
      simp [seedAdmin, hf, hfind]

/-- C8 witness: on an empty store the first call creates the admin user and
the second call answers "Admin already exists" leaving the store as after the
first call. -/
theorem seedAdmin_idempotent_witness :
    seedAdmin { users := [], cases := [] } 1 0 =
      ({ status := 200,
         message := "Admin created → email: admin@corruption.com password: admin123" },
       { users := [adminUser 1 0], cases := [] })
    ∧ seedAdmin (seedAdmin { users := [], cases := [] } 1 0).2 2 5 =
      ({ status := 200, message := "Admin already exists" },
       (seedAdmin { users := [], cases := [] } 1 0).2) :=
  ⟨(seedAdmin_idempotent { users := [], cases := [] } 1 0 2 5).2.1 (by decide),
   (seedAdmin_idempotent { users := [], cases := [] } 1 0 2 5).2.2⟩

end CorruptionServer

namespace CorruptionServer

theorem emailsNodup_append_of_absent (l : List User) (u : User)
    (hl : (l.map (fun x => x.email)).Nodup)
    (hn : l.find? (fun x => x.email == u.email) = none) :
    ((l ++ [u]).map (fun x => x.email)).Nodup := by
  have hmem : u.email ∉ l.map (fun x => x.email) := by
    intro hmem
    obtain ⟨x, hx, hxe⟩ := List.mem_map.mp hmem
    have := List.find?_eq_none.mp hn x hx
    simp [hxe] at this
  simp [List.nodup_append, hl, hmem]

/-- C9: email uniqueness is an invariant of the user store — from a store with
pairwise-distinct user emails, the register, create-admin, block, delete-case
and add-case operations all produce a store with pairwise-distinct user
emails (login and list-cases never write the store at all). -/
theorem email_uniqueness_invariant (db : DB) (hdb : EmailsNodup db) :
    (∀ name email password newId now,
      EmailsNodup (register db name email password newId now).2)
    ∧ (∀ n t, EmailsNodup (seedAdmin db n t).2)
    ∧ (∀ V header uid, EmailsNodup (blockRoute V header db uid).2)
    ∧ (∀ V header cid, EmailsNodup (deleteCaseRoute V header db cid).2)
    ∧ (∀ p title category description image newId now,
        EmailsNodup (addCaseHandler db p title category description image newId now)) := by
  refine ⟨?_, ?_, ?_, ?_, ?_⟩
  · intro name email password newId now
    unfold register
    cases hf : (jsFalsy email || jsFalsy password) with
    | true => exact hdb
    | false =>
      cases hfind : findByEmail db.users (email.getD "") with
      | some u => exact hdb
      | none =>
        exact emailsNodup_append_of_absent db.users _ hdb hfind
  · intro n t
    unfold seedAdmin
    cases hfind : findByEmail db.users "admin@corruption.com" with
    | some u => exact hdb
    | none =>
      exact emailsNodup_append_of_absent db.users _ hdb hfind
  · intro V header uid
    unfold blockRoute
    cases authMiddleware V header with
    | unauthenticated m => exact hdb
    | ok p =>
      by_cases hp : p.role ≠ "admin"
      · simpa [hp] using hdb
      · cases hfind : findById db.users uid with
        | none => simpa [hp, hfind] using hdb
        | some u =>
          have : EmailsNodup { db with users := setBlockedFirst db.users u.id (!u.blocked) } := by
            unfold EmailsNodup
            rw [map_email_setBlockedFirst]
            exact hdb
          simpa [hp, hfind] using this
  · intro V header cid
    unfold deleteCaseRoute
    cases authMiddleware V header with
    | unauthenticated m => exact hdb
    | ok p =>
      by_cases hp : p.role ≠ "admin"
      · simpa [hp] using hdb
      · simpa [hp] using hdb
  · intro p title category description image newId now
    exact hdb

/-- C9 witness: the invariant holds across a concrete successful registration
on a store already holding the admin user. -/
theorem email_uniqueness_invariant_witness :
    EmailsNodup (register { users := [adminUser 1 0], cases := [] }
      none (some "a@x.com") (some "pw1") 2 3).2 :=
  (email_uniqueness_invariant { users := [adminUser 1 0], cases := [] }
    (by simp [EmailsNodup])).1 none (some "a@x.com") (some "pw1") 2 3

end CorruptionServer
